import Mathlib

/-!
Verification development for the web3mq_mls client engine.

The Rust sources are shallowly embedded: bytes are `Nat` values (< 256 where
it matters), Rust `String` is Lean `String`, `HashMap`/`HashSet` are
association lists / lists of keys, and the external collaborators (the MLS
library, the delivery-service HTTP surface, SHA-256, Ed25519, the URL parser,
the file system and the system clock) are parameters of the embedded
operations.  A Rust computation that can `panic!` / `unwrap` / `expect` is
modelled with an explicit `RustResult.panic` outcome, kept distinct from an
`Err` value returned to the caller.
-/

namespace Web3mq

/-- Outcome of a Rust computation: `ok` and `err` are the two sides of a
returned `Result`, `panic` models `panic!` / `unwrap` / `expect` unwinding. -/
inductive RustResult (α : Type) where
  | ok (a : α)
  | err (e : String)
  | panic (msg : String)
deriving DecidableEq, Repr

/-- True exactly on the `panic` outcome. -/
def RustResult.isPanic {α : Type} : RustResult α → Bool
  | .panic _ => true
  | _ => false

/-- True exactly on the `err` outcome. -/
def RustResult.isErr {α : Type} : RustResult α → Bool
  | .err _ => true
  | _ => false

/-! ## Bytes, UTF-8 and hexadecimal helpers -/

/-- UTF-8 bytes of a string (as `Nat`s below 256), mirroring Rust
`str::as_bytes` / `String::into_bytes`. -/
def strBytes (s : String) : List Nat :=
  (s.data.flatMap String.utf8EncodeChar).map UInt8.toNat

theorem strBytes_append (s t : String) :
    strBytes (s ++ t) = strBytes s ++ strBytes t := by
  simp [strBytes, String.data_append, List.flatMap_append]

/-- The two lowercase hexadecimal digits of one byte, mirroring Rust
`format!("{:02x}", b)` for a `u8` (always exactly two digits). -/
def hex2 (b : Nat) : String :=
  String.mk [Nat.digitChar (b / 16 % 16), Nat.digitChar (b % 16)]

/-- Lowercase hex encoding of a byte string built by folding `hex2` over the
bytes and concatenating, mirroring
`digest.iter().map(|b| format!("{:02x}", b)).collect::<String>()` and
`hex::encode`. -/
def bytesToHex (l : List Nat) : String :=
  l.foldl (fun acc b => acc ++ hex2 b) ""

/-- Value of one hexadecimal digit character (junk value 0 on non-hex input;
the Rust sources `unwrap`/reject such input before it is ever used). -/
def hexDigitVal (c : Char) : Nat :=
  if '0' ≤ c ∧ c ≤ '9' then c.toNat - '0'.toNat
  else if 'a' ≤ c ∧ c ≤ 'f' then c.toNat - 'a'.toNat + 10
  else if 'A' ≤ c ∧ c ≤ 'F' then c.toNat - 'A'.toNat + 10
  else 0

/-- True iff `c` is a hexadecimal digit, as accepted by `hex::decode` and
`u8::from_str_radix(_, 16)`. -/
def isHexDigit (c : Char) : Bool :=
  ('0' ≤ c ∧ c ≤ '9') ∨ ('a' ≤ c ∧ c ≤ 'f') ∨ ('A' ≤ c ∧ c ≤ 'F')

/-- Byte values of a list of hex characters taken two at a time. -/
def hexPairs : List Char → List Nat
  | c1 :: c2 :: rest => (hexDigitVal c1 * 16 + hexDigitVal c2) :: hexPairs rest
  | _ => []

/-- Decode a hex string to bytes, mirroring the openmls test-util
`hex_to_bytes` (which panics on malformed input; the embedded callers only
apply it to well-formed hex). -/
def hexToBytes (s : String) : List Nat :=
  hexPairs s.data

/-- Decode a hex string to bytes, mirroring `hex::decode`: `none` on odd
length or any non-hex character. -/
def hexDecode (s : String) : Option (List Nat) :=
  if s.data.length % 2 = 0 ∧ s.data.all isHexDigit then
    some (hexPairs s.data)
  else
    none

/-! ## Base64 (standard and URL-safe alphabets, with padding)

The Rust sources use the `base64` crate: `base64::encode`/`base64::decode`
(standard alphabet, padded) in the native keystore persistence, and
`base64::encode_config(_, base64::URL_SAFE)` (URL-safe alphabet, padded)
in the wasm keystore persistence and the key-package maps. -/

/-- Standard-alphabet base64 character for a sextet (`A-Za-z0-9+/`). -/
def b64charStd (s : Nat) : Char :=
  if s < 26 then Char.ofNat (65 + s)
  else if s < 52 then Char.ofNat (97 + (s - 26))
  else if s < 62 then Char.ofNat (48 + (s - 52))
  else if s = 62 then '+'
  else '/'

/-- URL-safe-alphabet base64 character for a sextet (`A-Za-z0-9-_`). -/
def b64charUrl (s : Nat) : Char :=
  if s < 62 then b64charStd s
  else if s = 62 then '-'
  else '_'

/-- Sextet value of a base64 character, accepting both alphabets (junk value
0 on other characters; `base64::decode` rejects them, and the embedded
round-trip results never hit them). -/
def b64val (c : Char) : Nat :=
  if 'A' ≤ c ∧ c ≤ 'Z' then c.toNat - 65
  else if 'a' ≤ c ∧ c ≤ 'z' then c.toNat - 97 + 26
  else if '0' ≤ c ∧ c ≤ '9' then c.toNat - 48 + 52
  else if c = '+' ∨ c = '-' then 62
  else if c = '/' ∨ c = '_' then 63
  else 0

/-- Base64-encode a byte list with the given sextet alphabet, padded with
`=` to a multiple of four characters. -/
def b64chunks (tbl : Nat → Char) : List Nat → List Char
  | a :: b :: c :: rest =>
      tbl (a / 4) :: tbl (a % 4 * 16 + b / 16) :: tbl (b % 16 * 4 + c / 64) ::
        tbl (c % 64) :: b64chunks tbl rest
  | [a, b] => [tbl (a / 4), tbl (a % 4 * 16 + b / 16), tbl (b % 16 * 4), '=']
  | [a] => [tbl (a / 4), tbl (a % 4 * 16), '=', '=']
  | [] => []

/-- Base64-decode a character list (both alphabets), honouring `=` padding. -/
def b64dechunks : List Char → List Nat
  | c1 :: c2 :: c3 :: c4 :: rest =>
      if c3 = '=' then [b64val c1 * 4 + b64val c2 / 16]
      else if c4 = '=' then
        [b64val c1 * 4 + b64val c2 / 16, b64val c2 % 16 * 16 + b64val c3 / 4]
      else
        (b64val c1 * 4 + b64val c2 / 16) ::
          (b64val c2 % 16 * 16 + b64val c3 / 4) ::
          (b64val c3 % 4 * 64 + b64val c4) :: b64dechunks rest
  | _ => []

/-- Rust `base64::encode` (standard alphabet, padded). -/
def b64encodeStd (l : List Nat) : String := String.mk (b64chunks b64charStd l)

/-- Rust `base64::encode_config(_, base64::URL_SAFE)`. -/
def b64encodeUrl (l : List Nat) : String := String.mk (b64chunks b64charUrl l)

/-- Rust `base64::decode` / `base64::decode_config` on well-formed input
(the sources `unwrap` the result). -/
def b64decode (s : String) : List Nat := b64dechunks s.data

/-! ## Association-list maps and string sets

`HashMap<String, Group>` and `HashSet<String>` from `src/src/service/user.rs`
are modelled as an association list (unique-key insert) and a duplicate-free
membership list. -/

/-- `HashMap::get` on an association list. -/
def mapGet {α : Type} : List (String × α) → String → Option α
  | [], _ => none
  | (k, v) :: rest, key => if k = key then some v else mapGet rest key

/-- `HashMap::contains_key`. -/
def mapContains {α : Type} (m : List (String × α)) (key : String) : Bool :=
  (mapGet m key).isSome

/-- `HashMap::insert`: replace any entry with the same key. -/
def mapInsert {α : Type} (m : List (String × α)) (key : String) (v : α) :
    List (String × α) :=
  (key, v) :: m.filter (fun p => p.fst ≠ key)

/-- Update the value stored under `key` in place, when present. -/
def mapAdjust {α : Type} (m : List (String × α)) (key : String) (f : α → α) :
    List (String × α) :=
  m.map (fun p => if p.fst = key then (p.fst, f p.snd) else p)

/-- `HashMap::remove_entry` / `HashSet::remove`: drop the entry with the key. -/
def mapRemove {α : Type} (m : List (String × α)) (key : String) :
    List (String × α) :=
  m.filter (fun p => p.fst ≠ key)

/-- `HashSet::replace` on a membership list: insert if not yet present. -/
def setReplace (s : List String) (x : String) : List String :=
  if x ∈ s then s else s ++ [x]

/-- `HashSet::remove` on a membership list. -/
def setRemove (s : List String) (x : String) : List String :=
  s.filter (fun y => y ≠ x)

/-! ## Conversation log

`src/src/service/conversation.rs` is referenced from `src/src/service/mod.rs`
but is not among the provided sources, so the component is modelled from the
spec (§3, §4.3). -/

/-- A single logged message: `{ text: string, sender: user_id }` (spec §3). -/
structure ConversationMessage where
  text : String
  sender : String
deriving DecidableEq, Repr

/-- Modelled from the spec: `src/src/service/conversation.rs` is missing from
the sources.  Spec §3: an ordered sequence of `ConversationMessage` plus a
mapping from ciphertext fingerprint (hex string) to plaintext. -/
structure Conversation where
  messages : List ConversationMessage
  cache : List (String × String)
deriving DecidableEq, Repr

/-- The empty conversation, `Conversation::default()`. -/
def Conversation.default : Conversation := ⟨[], []⟩

/-- Modelled from the spec: `Conversation::add` is in the missing
`conversation.rs`.  Spec §4.3: ` add(message, fingerprint?)` appends and, if a
fingerprint is supplied, indexes the plaintext under it. -/
def Conversation.add (c : Conversation) (m : ConversationMessage)
    (fingerprint : Option String) : Conversation :=
  { messages := c.messages ++ [m]
    cache :=
      match fingerprint with
      | some f => mapInsert c.cache f m.text
      | none => c.cache }

/-- Modelled from the spec: `Conversation::get_cached_message` is in the
missing `conversation.rs`.  Spec §4.3: returns the plaintext if the
fingerprint matches a locally originated send. -/
def Conversation.get_cached_message (c : Conversation) (fingerprint : String) :
    Option String :=
  mapGet c.cache fingerprint

/-! ## The User data model (`src/src/service/user.rs`) -/

/-- A `Group`: name, conversation log and the (abstract) MLS group state `M`
(`src/src/service/user.rs:31`). -/
structure Group (M : Type) where
  group_id : String
  conversation : Conversation
  mls_group : M
deriving DecidableEq, Repr

/-- The persisted/in-memory fields of a `User`
(`src/src/service/user.rs:38`); the `backend` and `crypto` handles are
modelled as the external interface `Ext` below. -/
structure UserSt (M : Type) where
  user_id : String
  groups : List (String × Group M)
  group_list : List String
  autosave_enabled : Bool
  mls_sync_timestamp : Nat
deriving DecidableEq, Repr

/-- Result of processing one protocol message
(`src/src/service/user.rs:53`). -/
inductive PostUpdateActions where
  | noAction
  | remove
deriving DecidableEq, Repr

/-- Content of an MLS `ProcessedMessage` as dispatched by the source
(`ProcessedMessageContent` in openmls): application data, a proposal, an
external-join proposal, or a staged commit that knows whether it removes the
processing member. -/
inductive PContent where
  | app (bytes : List Nat)
  | proposal
  | externalJoin
  | staged (selfRemoved : Bool)
deriving DecidableEq, Repr

/-- The wire message body shape produced by `MlsMessageIn::extract`
(`MlsMessageInBody`): only the four cases the source branches on. -/
inductive MsgBody (P : Type) where
  | welcome
  | privMsg (p : P)
  | pubMsg (p : P)
  | other
deriving DecidableEq, Repr

/-- The external collaborators of the user orchestrator, as one record of
oracles: the MLS library (state type `M`, outbound message type `W`, protocol
message type `P`, key package type `KP`, group info type `GI`), the
delivery-service endpoints, the system clock and the file system.  `Option`
results model calls the source `unwrap`s/`expect`s (panicking on `none`);
`Except String` results model calls whose error the source converts into a
returned `Err` string. -/
structure Ext (M W P KP GI : Type) where
  create_message : M → List Nat → Except String (W × M)
  to_bytes : W → Except String (List Nat)
  deserialize : List Nat → Option P
  group_id_of : P → String
  process_message : M → P → Except String (PContent × M)
  merge_staged_commit : M → P → Except String M
  new_with_group_id : String → Option M
  set_aad : M → List Nat → M
  mls_group_id : M → String
  from_utf8 : List Nat → Option String
  add_members : M → KP → Except String (W × W × Option GI × M)
  merge_pending_commit : M → Option M
  consume_key_package : Option KP
  ds_send_msg : Option String
  ds_publish_group_info : Option String
  ds_send_welcome : Option String
  now : Nat
  file_create_ok : Bool

variable {M W P KP GI : Type}

/-! ## User operations (`src/src/service/user.rs`) -/

/-- In-memory effect of `UserStore::save` (`src/src/service/user.rs:184`):
for each group, `group_list.replace(group_name)`; the MLS group states and the
keystore go to the external byte store, which is outside this state. -/
def saveInMem (u : UserSt M) : UserSt M :=
  { u with group_list := u.groups.foldl (fun gl p => setReplace gl p.fst) u.group_list }

/-- `User::autosave` (`src/src/service/user.rs:299`): `save()` when the flag
is set.  `save` first does `File::create`, and on failure only logs, leaving
the in-memory state untouched. -/
def autosave (ext : Ext M W P KP GI) (u : UserSt M) : UserSt M :=
  if u.autosave_enabled then
    if ext.file_create_ok then saveInMem u else u
  else u

/-- `User::update_group_sync_timestamp` (`src/src/service/user.rs:857`). -/
def update_group_sync_timestamp (ext : Ext M W P KP GI) (u : UserSt M) : UserSt M :=
  autosave ext { u with mls_sync_timestamp := ext.now }

/-- Replace the MLS state of the group stored under `gid`. -/
def setGroupMls (u : UserSt M) (gid : String) (m : M) : UserSt M :=
  { u with groups := mapAdjust u.groups gid (fun g => { g with mls_group := m }) }

/-- Replace the conversation log of the group stored under `gid`. -/
def setGroupConv (u : UserSt M) (gid : String) (f : Conversation → Conversation) :
    UserSt M :=
  { u with groups := mapAdjust u.groups gid (fun g => { g with conversation := f g.conversation }) }

/-- `User::send_msg` (`src/src/service/user.rs:386`): create an MLS
application message for the group, hex-encode its serialized bytes, cache the
plaintext under the hex fingerprint, autosave, and return the hex string. -/
def send_msg (ext : Ext M W P KP GI) (u : UserSt M) (msg : String)
    (group_id : String) : RustResult String × UserSt M :=
  match mapGet u.groups group_id with
  | none => (.err "Unknown group", u)
  | some group =>
    match ext.create_message group.mls_group (strBytes msg) with
    | .error e => (.err e, u)
    | .ok (message_out, mls1) =>
      match ext.to_bytes message_out with
      | .error e => (.err e, u)
      | .ok msg_bytes =>
        let msg_to_ds := bytesToHex msg_bytes
        let conversation_message : ConversationMessage := ⟨msg, u.user_id⟩
        let u1 := setGroupMls u group_id mls1
        let u2 := setGroupConv u1 group_id
          (fun c => c.add conversation_message (some msg_to_ds))
        (.ok msg_to_ds, autosave ext u2)

/-- `User::read_msg` (`src/src/service/user.rs:419`): serve from the
conversation cache when the fingerprint is known; otherwise hex-decode,
deserialize, run MLS `process_message`, and cache/return an application
message's UTF-8 plaintext. -/
def read_msg (ext : Ext M W P KP GI) (u : UserSt M) (content sender group_id : String) :
    RustResult String × UserSt M :=
  match mapGet u.groups group_id with
  | none => (.err "Group not found", u)
  | some group =>
    match group.conversation.get_cached_message content with
    | some message => (.ok message, u)
    | none =>
      let msg_bytes := hexToBytes content
      match ext.deserialize msg_bytes with
      | none => (.err "Could not deserialize message.", u)
      | some protocol_message =>
        match ext.process_message group.mls_group protocol_message with
        | .error e => (.err ("Could not process message: " ++ e), u)
        | .ok (c, mls1) =>
          let u1 := setGroupMls u group_id mls1
          match c with
          | .app bytes =>
            match ext.from_utf8 bytes with
            | none => (.err "Invalid UTF-8 sequence", u1)
            | some result =>
              let u2 := setGroupConv u1 group_id
                (fun cv => cv.add ⟨result, sender⟩ (some content))
              (.ok result, u2)
          | _ => (.err "Error processing unverified message", u1)

/-- `User::create_group` (`src/src/service/user.rs:598`): build the MLS group
(ratchet-tree extension), set the AAD `group_id || " AAD"`, and insert it —
with a `panic!` (not an `Err`) when the group id is already present. -/
def create_group (ext : Ext M W P KP GI) (u : UserSt M) (group_id : String) :
    RustResult String × UserSt M :=
  let group_aad := strBytes group_id ++ strBytes " AAD"
  match ext.new_with_group_id group_id with
  | none => (.panic "Failed to create MlsGroup", u)
  | some mls0 =>
    let mls1 := ext.set_aad mls0 group_aad
    let group : Group M := ⟨group_id, Conversation.default, mls1⟩
    if mapContains u.groups group_id then
      (.panic ("Group \x27" ++ group_id ++ "\x27 existed already"), u)
    else
      let u1 := { u with groups := mapInsert u.groups group_id group }
      (.ok group_id, autosave ext u1)

/-- `User::process_protocol_message` (`src/src/service/user.rs:524`): locate
the group by the message's group id, run MLS `process_message`, merge a
staged commit, and report a self-removal as `(Remove, group_id)` (before the
sync-timestamp update, which the other successful outcomes perform). -/
def process_protocol_message (ext : Ext M W P KP GI) (u : UserSt M) (p : P) :
    RustResult (PostUpdateActions × Option String) × UserSt M :=
  let group_id := ext.group_id_of p
  match mapGet u.groups group_id with
  | none => (.err "error", u)
  | some group =>
    match ext.process_message group.mls_group p with
    | .error _ => (.err "error", u)
    | .ok (c, mls1) =>
      let u1 := setGroupMls u group_id mls1
      match c with
      | .staged selfRemoved =>
        match ext.merge_staged_commit mls1 p with
        | .error e => (.err e, u1)
        | .ok mls2 =>
          let u2 := setGroupMls u1 group_id mls2
          if selfRemoved then
            (.ok (.remove, some (ext.mls_group_id mls2)), u2)
          else
            (.ok (.noAction, none), update_group_sync_timestamp ext u2)
      | _ => (.ok (.noAction, none), update_group_sync_timestamp ext u1)

/-- `User::handle_mls_group_event` (`src/src/service/user.rs:482`): dispatch
on the message body.  A `Welcome` goes to `join_group` (passed as a
parameter); a `PrivateMessage` whose processing reports a self-removal drops
the group from `groups` and `group_list`; a `PublicMessage` has its
processing result discarded; anything else `panic!`s. -/
def handle_mls_group_event (ext : Ext M W P KP GI)
    (join_group : UserSt M → RustResult Unit × UserSt M)
    (u : UserSt M) (message : MsgBody P) : RustResult Unit × UserSt M :=
  match message with
  | .welcome =>
    match join_group u with
    | (.ok _, u1) => (.ok (), u1)
    | (.err e, u1) => (.err e, u1)
    | (.panic m, u1) => (.panic m, u1)
  | .privMsg p =>
    match process_protocol_message ext u p with
    | (.ok (.remove, some gid), u1) =>
        (.ok (), { u1 with
          groups := mapRemove u1.groups gid
          group_list := setRemove u1.group_list gid })
    | (.ok _, u1) => (.ok (), u1)
    | (.err _, u1) => (.ok (), u1)
    | (.panic m, u1) => (.panic m, u1)
  | .pubMsg p =>
    match process_protocol_message ext u p with
    | (.panic m, u1) => (.panic m, u1)
    | (_, u1) => (.ok (), u1)
  | .other => (.panic "Unsupported message type", u)

/-- Observable side effects of `User::add_member_to_group`, in the order they
were performed: DS transmissions and the local merge. -/
inductive AmEvent where
  | sendCommit
  | mergeCommit
  | publishGroupInfo
  | sendWelcome
deriving DecidableEq, Repr

/-- Index of the first occurrence of an event in a trace (length of the trace
when absent). -/
def evIdx (e : AmEvent) : List AmEvent → Nat
  | [] => 0
  | x :: t => if x = e then 0 else evIdx e t + 1

/-- `User::add_member_to_group` (`src/src/service/user.rs:643`): consume a key
package (`unwrap`!), run `add_members`, send the commit to the group topic,
merge the pending commit locally (`expect`), publish the group info if one was
produced, and finally send the Welcome (`expect`).  The returned event list
records the DS transmissions that succeeded and the local merge, in order. -/
def add_member_to_group (ext : Ext M W P KP GI) (u : UserSt M)
    (_user_id group_name : String) :
    RustResult Unit × UserSt M × List AmEvent :=
  match ext.consume_key_package with
  | none => (.panic "called unwrap on an Err value (consume_key_package)", u, [])
  | some joiner_key_package =>
    match mapGet u.groups group_name with
    | none => (.err ("No group with name " ++ group_name ++ " known."), u, [])
    | some group =>
      match ext.add_members group.mls_group joiner_key_package with
      | .error e => (.err ("Failed to add member to group - " ++ e), u, [])
      | .ok (_out_messages, _welcome, group_info, mls1) =>
        let u1 := setGroupMls u group_name mls1
        match ext.ds_send_msg with
        | some e => (.err e, u1, [])
        | none =>
          match ext.merge_pending_commit mls1 with
          | none => (.panic "error merging pending commit", u1, [.sendCommit])
          | some mls2 =>
            let u2 := setGroupMls u1 group_name mls2
            match group_info with
            | some _gi =>
              match ext.ds_publish_group_info with
              | some e => (.err e, u2, [.sendCommit, .mergeCommit])
              | none =>
                match ext.ds_send_welcome with
                | some _e =>
                    (.panic "Error sending Welcome message", u2,
                      [.sendCommit, .mergeCommit, .publishGroupInfo])
                | none =>
                    (.ok (), autosave ext u2,
                      [.sendCommit, .mergeCommit, .publishGroupInfo, .sendWelcome])
            | none =>
              match ext.ds_send_welcome with
              | some _e =>
                  (.panic "Error sending Welcome message", u2,
                    [.sendCommit, .mergeCommit])
              | none =>
                  (.ok (), autosave ext u2,
                    [.sendCommit, .mergeCommit, .sendWelcome])

/-! ## The DS adapter: request signing (`src/src/service/backend.rs`,
`src/src/service/networking.rs`)

SHA-256 and the raw Ed25519 signing primitive are external (the `sha2` and
`ed25519_dalek` crates); they enter as function parameters `sha`/`ed` from
bytes to bytes.  `ed25519_dalek` signing is deterministic (RFC 8032), which is
what modelling it as a function expresses. -/

/-- `Backend::get_payload_hash` (`src/src/service/backend.rs:51`):
`format!("{}{}{}", user_id, body, timestamp)`, SHA-256, and a fold of
`format!("{:02x}", b)` over the digest bytes. -/
def get_payload_hash (sha : List Nat → List Nat) (user_id body : String)
    (timestamp : Nat) : String :=
  let content := user_id ++ body ++ Nat.repr timestamp
  bytesToHex (sha (strBytes content))

/-- The payload-hash formula as the spec words it (§4.6 step 3):
`lowercase_hex(SHA256(user_id || body || decimal(timestamp)))`, a byte-level
concatenation rendered as lowercase hex. -/
def payload_hash_spec (sha : List Nat → List Nat) (user_id body : String)
    (timestamp : Nat) : String :=
  String.mk ((sha (strBytes user_id ++ strBytes body ++
    strBytes (Nat.repr timestamp))).flatMap
      (fun b => [Nat.digitChar (b / 16 % 16), Nat.digitChar (b % 16)]))

/-- `ed25519_sign` (`src/src/service/networking.rs:88`): hex-decode the
private key, require 32 bytes, sign the UTF-8 bytes of the content with the
external Ed25519 primitive `ed`, and hex-encode the signature. -/
def ed25519_sign (ed : List Nat → List Nat → List Nat)
    (private_key sign_content : String) : RustResult String :=
  match hexDecode private_key with
  | none => .err "Failed to decode private key"
  | some private_key_bytes =>
    if private_key_bytes.length = 32 then
      .ok (bytesToHex (ed private_key_bytes (strBytes sign_content)))
    else
      .err "Invalid private key length"

/-- `Backend::sign_request` (`src/src/service/backend.rs:32`): fill a missing
timestamp from the clock (`now`), compute the payload hash, and sign it
(`expect("Error signing")`, a `panic!` on a bad key). -/
def sign_request (sha : List Nat → List Nat) (ed : List Nat → List Nat → List Nat)
    (now : Nat) (user_id body private_key : String) (timestamp : Option Nat) :
    RustResult (String × String × Nat) :=
  let ts := timestamp.getD now
  let payload_hash := get_payload_hash sha user_id body ts
  match ed25519_sign ed private_key payload_hash with
  | .ok signature => .ok (signature, payload_hash, ts)
  | .err _ => .panic "Error signing"
  | .panic m => .panic m

/-! ## Networking config and `Backend::default` / `User::new` -/

/-- The fields of the process-wide `NetworkingConfig`
(`src/src/service/networking.rs:13`), without the mutexes. -/
structure NetworkingConfigV where
  base_url : String
  pubkey : String
  did_key : String
  private_key : String
deriving DecidableEq, Repr

/-- The initial value of `SINGLETON_CONFIG`
(`src/src/service/networking.rs:20`): every field starts as the empty
string. -/
def singletonConfigInit : NetworkingConfigV := ⟨"", "", "", ""⟩

/-- A constructed `Backend` holds a parsed DS url
(`src/src/service/backend.rs:27`); `URL` is the abstract parsed-url type of
the external `url` crate. -/
structure BackendSt (URL : Type) where
  ds_url : URL
deriving DecidableEq, Repr

/-- `Backend::default` (`src/src/service/backend.rs:266`):
`Url::parse(&NetworkingConfig::instance().get_base_url()).unwrap()` — the
`unwrap` turns an unparseable base url into a `panic!`, not an `Err`. -/
def Backend.default {URL : Type} (parseUrl : String → Option URL)
    (cfg : NetworkingConfigV) : RustResult (BackendSt URL) :=
  match parseUrl cfg.base_url with
  | some url => .ok ⟨url⟩
  | none => .panic "called unwrap on an Err value (Url::parse)"

/-- `User::new` (`src/src/service/user.rs:274`): build the crypto provider and
identity (`identity_new`, an external constructor that itself may panic but
never returns an error), then `Backend::default()`, then the fresh in-memory
state.  No `Result` is returned: the only failure mode is a panic. -/
def User.new {URL ι : Type} (identity_new : Option ι)
    (parseUrl : String → Option URL) (cfg : NetworkingConfigV)
    (user_id : String) : RustResult (UserSt M) :=
  match identity_new with
  | none => .panic "Identity::new panicked"
  | some _ =>
    match Backend.default parseUrl cfg with
    | .panic m => .panic m
    | .err e => .err e
    | .ok _ =>
      .ok { user_id := user_id
            groups := []
            group_list := []
            autosave_enabled := false
            mls_sync_timestamp := 0 }

/-! ## Persistent keystore (`src/src/storage/persistent_key_store.rs`)

The in-memory `values: HashMap<Vec<u8>, Vec<u8>>` is modelled as an
association list of byte lists whose iteration order is the list order.  The
external byte store is a function from the file path (native) or the user id
(wasm) to the stored blob. -/

/-- The bytes-to-bytes keystore map. -/
abbrev KsMap : Type := List (List Nat × List Nat)

/-- `SerializableKeyStore` (`src/src/storage/persistent_key_store.rs:19`):
string-keyed entries as persisted. -/
structure SerializableKeyStore where
  values : List (String × String)
deriving DecidableEq, Repr

/-- `PersistentKeyStore::get_file_path`
(`src/src/storage/persistent_key_store.rs:164`). -/
def ksFilePath (user_name : String) : String :=
  "web3mq_" ++ user_name ++ "_ks.json"

/-- The serialization step of the native `save_to_file`
(`src/src/storage/persistent_key_store.rs:168`): every key and value is
encoded with `base64::encode` — the standard alphabet, with padding. -/
def ks_save_to_file (ks : KsMap) : SerializableKeyStore :=
  ⟨ks.map (fun p => (b64encodeStd p.fst, b64encodeStd p.snd))⟩

/-- Insert decoded entries into the in-memory map (both `load_from_file`
variants do `ks_map.insert(decode(key), decode(value))` per entry). -/
def ksInsertAll (ks : KsMap) (entries : List (List Nat × List Nat)) : KsMap :=
  entries.foldl
    (fun acc p =>
      if acc.any (fun q => q.fst = p.fst) then
        acc.map (fun q => if q.fst = p.fst then p else q)
      else acc ++ [p])
    ks

/-- The native `PersistentKeyStore::load`
(`src/src/storage/persistent_key_store.rs:210`): `File::open` the per-user
path — a missing file is an `Err`, not an empty map — then parse a
`SerializableKeyStore` and insert its `base64::decode`d entries. -/
def ks_load_native {Blob : Type} (fs : String → Option Blob)
    (parse : Blob → Option SerializableKeyStore)
    (ks : KsMap) (user_name : String) : RustResult Unit × KsMap :=
  match fs (ksFilePath user_name) with
  | none => (.err "No such file or directory (os error 2)", ks)
  | some blob =>
    match parse blob with
    | none => (.err "error parsing SerializableKeyStore", ks)
    | some ser_ks =>
      (.ok (),
        ksInsertAll ks (ser_ks.values.map
          (fun p => (b64decode p.fst, b64decode p.snd))))

/-- The wasm `PersistentKeyStore::load_from_file`
(`src/src/storage/persistent_key_store.rs:113`): fetch by user id from the
indexed store; an absent record deserializes to `None` and yields `Ok` with
the map untouched; a present one has its URL-safe-base64 entries inserted. -/
def ks_load_wasm (db : String → Option SerializableKeyStore)
    (ks : KsMap) (user_id : String) : RustResult Unit × KsMap :=
  match db user_id with
  | none => (.ok (), ks)
  | some ser_ks =>
    (.ok (),
      ksInsertAll ks (ser_ks.values.map
        (fun p => (b64decode p.fst, b64decode p.snd))))

/-! ## Concrete instances used to evaluate the embedded operations -/

/-- A fully successful external environment over trivial payload types: every
MLS call succeeds, every DS call succeeds, and processing any protocol
message yields a staged commit that removes the processing member.  Group ids
reported by the MLS layer are all `"g1"`. -/
def extU : Ext Unit Unit Unit Unit Unit where
  create_message := fun _ _ => .ok ((), ())
  to_bytes := fun _ => .ok [171]
  deserialize := fun _ => some ()
  group_id_of := fun _ => "g1"
  process_message := fun _ _ => .ok (.staged true, ())
  merge_staged_commit := fun _ _ => .ok ()
  new_with_group_id := fun _ => some ()
  set_aad := fun m _ => m
  mls_group_id := fun _ => "g1"
  from_utf8 := fun _ => some ""
  add_members := fun _ _ => .ok ((), (), some (), ())
  merge_pending_commit := fun _ => some ()
  consume_key_package := some ()
  ds_send_msg := none
  ds_publish_group_info := none
  ds_send_welcome := none
  now := 42
  file_create_ok := true

/-- A user `Alice` who is a member of the single group `g1`. -/
def user1 : UserSt Unit :=
  { user_id := "Alice"
    groups := [("g1", ⟨"g1", Conversation.default, ()⟩)]
    group_list := ["g1"]
    autosave_enabled := false
    mls_sync_timestamp := 0 }

/-- Like `user1`, but the `g1` conversation cache already holds the
fingerprint `"abcd"` with plaintext `"hi"`. -/
def user2 : UserSt Unit :=
  { user_id := "Alice"
    groups := [("g1", ⟨"g1", ⟨[], [("abcd", "hi")]⟩, ()⟩)]
    group_list := ["g1"]
    autosave_enabled := false
    mls_sync_timestamp := 0 }

/-- A trivial stand-in for `User::join_group` (never reached by the messages
considered here). -/
def joinU : UserSt Unit → RustResult Unit × UserSt Unit := fun u => (.ok (), u)

/-! ## Helper lemmas -/

theorem b64val_b64charStd : ∀ s : Fin 64, b64val (b64charStd s.val) = s.val := by
  decide

theorem b64val_b64charUrl : ∀ s : Fin 64, b64val (b64charUrl s.val) = s.val := by
  decide

theorem b64charStd_ne_pad : ∀ s : Fin 64, b64charStd s.val ≠ '=' := by
  decide

theorem b64charUrl_ne_pad : ∀ s : Fin 64, b64charUrl s.val ≠ '=' := by
  decide

theorem b64dechunks_b64chunks (tbl : Nat → Char)
    (htbl : ∀ s : Fin 64, b64val (tbl s.val) = s.val)
    (hpad : ∀ s : Fin 64, tbl s.val ≠ '=')
    (l : List Nat) (hl : ∀ b ∈ l, b < 256) :
    b64dechunks (b64chunks tbl l) = l := by
  match l with
  | [] => simp [b64chunks, b64dechunks]
  | [a] =>
      have ha : a < 256 := hl a (by simp)
      have e1 : b64val (tbl (a / 4)) = a / 4 := htbl ⟨a / 4, by omega⟩
      have e2 : b64val (tbl (a % 4 * 16)) = a % 4 * 16 := htbl ⟨a % 4 * 16, by omega⟩
      simp only [b64chunks, b64dechunks, e1, e2, if_true, eq_self_iff_true,
        List.cons.injEq, and_true]
      omega
  | [a, b] =>
      have ha : a < 256 := hl a (by simp)
      have hb : b < 256 := hl b (by simp)
      have e1 : b64val (tbl (a / 4)) = a / 4 := htbl ⟨a / 4, by omega⟩
      have e2 : b64val (tbl (a % 4 * 16 + b / 16)) = a % 4 * 16 + b / 16 :=
        htbl ⟨a % 4 * 16 + b / 16, by omega⟩
      have e3 : b64val (tbl (b % 16 * 4)) = b % 16 * 4 := htbl ⟨b % 16 * 4, by omega⟩
      have n3 : ¬ (tbl (b % 16 * 4) = '=') := hpad ⟨b % 16 * 4, by omega⟩
      simp only [b64chunks, b64dechunks, e1, e2, e3, n3, if_false, if_true,
        eq_self_iff_true, List.cons.injEq, and_true]
      omega
  | a :: b :: c :: rest =>
      have ha : a < 256 := hl a (by simp)
      have hb : b < 256 := hl b (by simp)
      have hc : c < 256 := hl c (by simp)
      have e1 : b64val (tbl (a / 4)) = a / 4 := htbl ⟨a / 4, by omega⟩
      have e2 : b64val (tbl (a % 4 * 16 + b / 16)) = a % 4 * 16 + b / 16 :=
        htbl ⟨a % 4 * 16 + b / 16, by omega⟩
      have e3 : b64val (tbl (b % 16 * 4 + c / 64)) = b % 16 * 4 + c / 64 :=
        htbl ⟨b % 16 * 4 + c / 64, by omega⟩
      have e4 : b64val (tbl (c % 64)) = c % 64 := htbl ⟨c % 64, by omega⟩
      have n3 : ¬ (tbl (b % 16 * 4 + c / 64) = '=') :=
        hpad ⟨b % 16 * 4 + c / 64, by omega⟩
      have n4 : ¬ (tbl (c % 64) = '=') := hpad ⟨c % 64, by omega⟩
      have ih := b64dechunks_b64chunks tbl htbl hpad rest
        (fun x hx => hl x (by simp [hx]))
      simp only [b64chunks, b64dechunks, e1, e2, e3, e4, n3, n4, if_false,
        eq_self_iff_true, ih, List.cons.injEq, and_true]
      omega
termination_by l.length

theorem b64decode_b64encodeStd (l : List Nat) (hl : ∀ b ∈ l, b < 256) :
    b64decode (b64encodeStd l) = l :=
  b64dechunks_b64chunks b64charStd b64val_b64charStd b64charStd_ne_pad l hl

theorem b64decode_b64encodeUrl (l : List Nat) (hl : ∀ b ∈ l, b < 256) :
    b64decode (b64encodeUrl l) = l :=
  b64dechunks_b64chunks b64charUrl b64val_b64charUrl b64charUrl_ne_pad l hl

theorem mapGet_mapInsert_self {α : Type} (m : List (String × α)) (k : String) (v : α) :
    mapGet (mapInsert m k v) k = some v := by
  simp [mapInsert, mapGet]

theorem mapGet_cons {α : Type} (a : String) (b : α) (t : List (String × α))
    (key : String) :
    mapGet ((a, b) :: t) key = if a = key then some b else mapGet t key := rfl

theorem mapAdjust_cons {α : Type} (a : String) (b : α) (t : List (String × α))
    (k : String) (f : α → α) :
    mapAdjust ((a, b) :: t) k f =
      (if a = k then (a, f b) else (a, b)) :: mapAdjust t k f := by
  simp only [mapAdjust, List.map_cons]

theorem mapGet_mapAdjust {α : Type} (m : List (String × α)) (k k' : String) (f : α → α) :
    mapGet (mapAdjust m k f) k' =
      if k' = k then (mapGet m k').map f else mapGet m k' := by
  induction m with
  | nil => by_cases h : k' = k <;> simp [mapAdjust, mapGet, h]
  | cons p t ih =>
    obtain ⟨a, b⟩ := p
    rw [mapAdjust_cons]
    by_cases hak : a = k
    · rw [if_pos hak]
      by_cases hk : a = k'
      · rw [mapGet_cons, if_pos hk, mapGet_cons, if_pos hk,
          if_pos (hk.symm.trans hak : k' = k)]
        rfl
      · rw [mapGet_cons, if_neg hk, mapGet_cons, if_neg hk, ih]
    · rw [if_neg hak]
      by_cases hk : a = k'
      · have hkk : ¬ k' = k := fun h => hak (hk.trans h)
        rw [mapGet_cons, if_pos hk, if_neg hkk, mapGet_cons, if_pos hk]
      · rw [mapGet_cons, if_neg hk, ih, mapGet_cons, if_neg hk]

theorem mapContains_mapAdjust {α : Type} (m : List (String × α)) (k k' : String)
    (f : α → α) : mapContains (mapAdjust m k f) k' = mapContains m k' := by
  unfold mapContains
  rw [mapGet_mapAdjust]
  by_cases h : k' = k <;> simp [h, Option.isSome_map]

theorem mapContains_mapRemove_self {α : Type} (m : List (String × α)) (k : String) :
    mapContains (mapRemove m k) k = false := by
  induction m with
  | nil => simp [mapRemove, mapContains, mapGet]
  | cons p t ih =>
    by_cases h : p.fst = k <;>
      simp_all [mapRemove, mapContains, mapGet, List.filter_cons]

theorem not_mem_setRemove_self (s : List String) (x : String) :
    x ∉ setRemove s x := by
  simp [setRemove]

theorem saveInMem_groups (u : UserSt M) : (saveInMem u).groups = u.groups := rfl

theorem autosave_groups (ext : Ext M W P KP GI) (u : UserSt M) :
    (autosave ext u).groups = u.groups := by
  unfold autosave
  split <;> [skip; rfl]
  split <;> rfl

theorem setGroupMls_group_list (u : UserSt M) (gid : String) (m : M) :
    (setGroupMls u gid m).group_list = u.group_list := rfl

theorem bytesToHex_data (l : List Nat) :
    (bytesToHex l).data =
      l.flatMap (fun b => [Nat.digitChar (b / 16 % 16), Nat.digitChar (b % 16)]) := by
  suffices h : ∀ acc : String,
      (l.foldl (fun acc b => acc ++ hex2 b) acc).data =
        acc.data ++ l.flatMap
          (fun b => [Nat.digitChar (b / 16 % 16), Nat.digitChar (b % 16)]) by
    simpa using h ""
  induction l with
  | nil => intro acc; simp
  | cons b t ih =>
    intro acc
    simp only [List.foldl_cons, List.flatMap_cons, ih, String.data_append]
    simp [hex2]

theorem string_mk_data (s : String) : String.mk s.data = s := rfl

/-! ## Claim theorems -/

/-- C3: for every user_id, body and timestamp, the payload hash produced by
`Backend::get_payload_hash` equals the lowercase hexadecimal encoding of
SHA-256 applied to the byte concatenation of user_id, body and the decimal
representation of the timestamp — for any choice of the external SHA-256
primitive `sha`. -/
theorem payload_hash_matches_spec (sha : List Nat → List Nat)
    (user_id body : String) (timestamp : Nat) :
    get_payload_hash sha user_id body timestamp =
      payload_hash_spec sha user_id body timestamp := by
  unfold get_payload_hash payload_hash_spec
  rw [← string_mk_data (bytesToHex _), bytesToHex_data, strBytes_append,
    strBytes_append, List.append_assoc]

/-- C8: `Backend::sign_request` is deterministic when the timestamp is
supplied explicitly: for equal `(user_id, body, private_key_hex, timestamp)`
tuples the full result — the signature string, the payload hash and the
echoed timestamp — is identical, independently of the ambient clock (`now₁`
vs `now₂`). -/
theorem sign_request_deterministic (sha : List Nat → List Nat)
    (ed : List Nat → List Nat → List Nat) (now₁ now₂ : Nat)
    (user_id body private_key : String) (t : Nat) :
    sign_request sha ed now₁ user_id body private_key (some t) =
      sign_request sha ed now₂ user_id body private_key (some t) := rfl

/-- C9: the initial process-wide config has an empty `base_url`, and whenever
the configured `base_url` does not parse as a URL, `Backend::default` — and
hence `User::new` — ends in a `panic!` rather than returning an error. -/
theorem user_new_panics_on_unparseable_base_url {URL ι : Type}
    (parseUrl : String → Option URL) (cfg : NetworkingConfigV)
    (identity_new : Option ι) (user_id : String)
    (h : parseUrl cfg.base_url = none) :
    singletonConfigInit.base_url = "" ∧
      Backend.default parseUrl cfg =
        .panic "called unwrap on an Err value (Url::parse)" ∧
      (User.new identity_new parseUrl cfg user_id :
        RustResult (UserSt Unit)).isPanic = true := by
  refine ⟨rfl, ?_, ?_⟩
  · simp [Backend.default, h]
  · cases identity_new <;> simp [User.new, Backend.default, h, RustResult.isPanic]

/-- C9 witness: with the URL parser rejecting everything (in particular the
initial empty base url), `User::new` panics. -/
theorem user_new_panics_witness :
    singletonConfigInit.base_url = "" ∧
      Backend.default (fun _ => (none : Option Unit)) singletonConfigInit =
        .panic "called unwrap on an Err value (Url::parse)" ∧
      (User.new (some ()) (fun _ => (none : Option Unit)) singletonConfigInit
        "Alice" : RustResult (UserSt Unit)).isPanic = true :=
  user_new_panics_on_unparseable_base_url (fun _ => none) singletonConfigInit
    (some ()) "Alice" rfl

/-- C10: when the fingerprint is present in the group's conversation cache,
`User::read_msg` returns the cached plaintext and leaves the entire user
state — the group's MLS state included — unchanged; MLS processing is never
invoked. -/
theorem read_msg_cached_frame (ext : Ext M W P KP GI) (u : UserSt M)
    (content sender group_id : String) (g : Group M) (m : String)
    (hg : mapGet u.groups group_id = some g)
    (hc : g.conversation.get_cached_message content = some m) :
    read_msg ext u content sender group_id = (.ok m, u) := by
  unfold read_msg
  simp only [hg, hc]

/-- C10 witness: reading the cached fingerprint `"abcd"` of `user2`'s group
`g1` returns the cached plaintext `"hi"` and the state unchanged. -/
theorem read_msg_cached_frame_witness :
    read_msg extU user2 "abcd" "Bob" "g1" = (.ok "hi", user2) :=
  read_msg_cached_frame extU user2 "abcd" "Bob" "g1"
    ⟨"g1", ⟨[], [("abcd", "hi")]⟩, ()⟩ "hi" rfl rfl

/-- C5 counterexample: creating the already-present group `g1` does not
return a "group exists" error to the caller — it panics (and leaves the
state unchanged). -/
theorem create_group_existing_panics_cx :
    create_group extU user1 "g1" =
      (.panic "Group \x27g1\x27 existed already", user1) := rfl

/-- C5 (amended): when the group id is already present (and the MLS library
constructs the new group, which it is about to discard), `create_group`
panics with "Group {id} existed already" instead of returning an error, and
the user state — `groups` and `group_list` included — is unchanged at the
panic point. -/
theorem create_group_existing_panics (ext : Ext M W P KP GI) (u : UserSt M)
    (group_id : String) (m0 : M)
    (hnew : ext.new_with_group_id group_id = some m0)
    (hmem : mapContains u.groups group_id = true) :
    create_group ext u group_id =
      (.panic ("Group \x27" ++ group_id ++ "\x27 existed already"), u) := by
  unfold create_group
  rw [hnew]
  simp [hmem]

/-- C5 witness: the amended statement evaluated on `user1` and its existing
group `g1`. -/
theorem create_group_existing_panics_witness :
    create_group extU user1 "g1" =
      (.panic ("Group \x27" ++ "g1" ++ "\x27 existed already"), user1) :=
  create_group_existing_panics extU user1 "g1" () rfl rfl

/-- C6 counterexample: under the native file backend (the cited
`PersistentKeyStore::load` at `src/src/storage/persistent_key_store.rs:210`),
a missing store file is an error — not a success with an empty map. -/
theorem ks_load_native_missing_err_cx :
    ks_load_native (fun _ => (none : Option Unit)) (fun _ => none) [] "Alice" =
      (.err "No such file or directory (os error 2)", []) := rfl

/-- C6 (amended): a missing persisted store is not an error only for the wasm
(indexed-DB) backend, where `load` succeeds and leaves the map untouched;
the native file backend returns the `File::open` error instead. -/
theorem ks_load_missing_store {Blob : Type}
    (db : String → Option SerializableKeyStore)
    (fs : String → Option Blob) (parse : Blob → Option SerializableKeyStore)
    (ks : KsMap) (user_id : String)
    (hdb : db user_id = none)
    (hfs : fs (ksFilePath user_id) = none) :
    ks_load_wasm db ks user_id = (.ok (), ks) ∧
      (ks_load_native fs parse ks user_id).fst.isErr = true := by
  constructor
  · unfold ks_load_wasm
    rw [hdb]
  · unfold ks_load_native
    rw [hfs]
    rfl

/-- C6 witness: the amended statement evaluated on empty stores. -/
theorem ks_load_missing_store_witness :
    ks_load_wasm (fun _ => none) [] "Alice" = (.ok (), []) ∧
      (ks_load_native (fun _ => (none : Option Unit)) (fun _ => none) []
        "Alice").fst.isErr = true :=
  ks_load_missing_store (fun _ => none) (fun _ => none) (fun _ => none) []
    "Alice" rfl rfl

theorem ksInsertAll_append (entries : List (List Nat × List Nat)) :
    ∀ acc : KsMap, (entries.map Prod.fst).Nodup →
      (∀ p ∈ entries, acc.any (fun q => q.fst = p.fst) = false) →
      ksInsertAll acc entries = acc ++ entries := by
  induction entries with
  | nil => intro acc _ _; simp [ksInsertAll]
  | cons p t ih =>
    intro acc hnd hdisj
    have hstep : ksInsertAll acc (p :: t) = ksInsertAll (acc ++ [p]) t := by
      unfold ksInsertAll
      rw [List.foldl_cons, hdisj p (List.mem_cons_self p t)]
      simp
    rw [hstep]
    have hndt : (t.map Prod.fst).Nodup := (List.nodup_cons.mp (by simpa using hnd)).2
    have hhead : p.fst ∉ t.map Prod.fst := (List.nodup_cons.mp (by simpa using hnd)).1
    rw [ih (acc ++ [p]) hndt ?_]
    · simp
    · intro p' hp'
      rw [List.any_append]
      have h1 : acc.any (fun q => q.fst = p'.fst) = false :=
        hdisj p' (List.mem_cons_of_mem p hp')
      have h2 : (¬ (p.fst = p'.fst)) := by
        intro hcontra
        exact hhead (hcontra ▸ List.mem_map_of_mem Prod.fst hp')
      simp [h1, h2]

theorem ks_decode_encode (ks : KsMap)
    (hb : ∀ p ∈ ks, (∀ b ∈ p.fst, b < 256) ∧ (∀ b ∈ p.snd, b < 256)) :
    (ks_save_to_file ks).values.map
      (fun p => (b64decode p.fst, b64decode p.snd)) = ks := by
  unfold ks_save_to_file
  induction ks with
  | nil => simp
  | cons p t ih =>
    obtain ⟨hk, hv⟩ := hb p (List.mem_cons_self p t)
    simp only [List.map_cons, b64decode_b64encodeStd p.fst hk,
      b64decode_b64encodeStd p.snd hv,
      ih (fun q hq => hb q (List.mem_cons_of_mem p hq)), List.cons.injEq, and_true]

/-- C7 counterexample: the native `save_to_file` does not persist
base64-URL-safe entries — the byte `0xFB` is encoded with the standard
alphabet (`"+w=="`), not the URL-safe one (`"-w=="`). -/
theorem ks_save_not_urlsafe_cx :
    (ks_save_to_file [([251], [251])]).values ≠
      [(b64encodeUrl [251], b64encodeUrl [251])] := by
  decide

/-- C7 (amended): the native `save_to_file` persists a `SerializableKeyStore`
whose entries are standard-alphabet, padded base64 encodings of the key and
value bytes, and a subsequent `load` through a faithful byte store restores
the map bitwise. -/
theorem ks_save_load_roundtrip {Blob : Type} (fs : String → Option Blob)
    (parse : Blob → Option SerializableKeyStore) (blob : Blob)
    (ks : KsMap) (user_id : String)
    (hb : ∀ p ∈ ks, (∀ b ∈ p.fst, b < 256) ∧ (∀ b ∈ p.snd, b < 256))
    (hnd : (ks.map Prod.fst).Nodup)
    (hfs : fs (ksFilePath user_id) = some blob)
    (hparse : parse blob = some (ks_save_to_file ks)) :
    ks_load_native fs parse [] user_id = (.ok (), ks) := by
  unfold ks_load_native
  simp only [hfs, hparse, ks_decode_encode ks hb]
  rw [ksInsertAll_append ks [] hnd (fun p _ => rfl)]
  simp

/-- C7 witness: the amended statement evaluated on the one-entry map
`{[0xFB] ↦ [0xFB]}`. -/
theorem ks_save_load_roundtrip_witness :
    ks_load_native (fun _ => some (ks_save_to_file [([251], [251])])) some []
      "Alice" = (.ok (), [([251], [251])]) :=
  ks_save_load_roundtrip (fun _ => some (ks_save_to_file [([251], [251])]))
    some (ks_save_to_file [([251], [251])]) [([251], [251])] "Alice"
    (by decide) (by decide) rfl rfl

/-- C4: in every successful `add_member_to_group` call, the commit is
transmitted to the group topic strictly before the local
`merge_pending_commit` and strictly before the Welcome transmission, and the
group-info publication, when one happens, precedes the Welcome
transmission. -/
theorem add_member_commit_order (ext : Ext M W P KP GI) (u : UserSt M)
    (user_id group_name : String) (u' : UserSt M) (tr : List AmEvent)
    (h : add_member_to_group ext u user_id group_name = (.ok (), u', tr)) :
    AmEvent.sendCommit ∈ tr ∧ AmEvent.mergeCommit ∈ tr ∧
      AmEvent.sendWelcome ∈ tr ∧
      evIdx .sendCommit tr < evIdx .mergeCommit tr ∧
      evIdx .sendCommit tr < evIdx .sendWelcome tr ∧
      (AmEvent.publishGroupInfo ∈ tr →
        evIdx .publishGroupInfo tr < evIdx .sendWelcome tr) := by
  unfold add_member_to_group at h
  repeat' split at h
  all_goals simp at h
  all_goals obtain ⟨-, htr⟩ := h
  all_goals rw [← htr]
  all_goals decide

/-- C4 witness: a fully successful run (with a group info produced) of
`add_member_to_group` on `user1`. -/
theorem add_member_commit_order_witness :
    AmEvent.sendCommit ∈
        [AmEvent.sendCommit, AmEvent.mergeCommit, AmEvent.publishGroupInfo,
          AmEvent.sendWelcome] ∧
      AmEvent.mergeCommit ∈
        [AmEvent.sendCommit, AmEvent.mergeCommit, AmEvent.publishGroupInfo,
          AmEvent.sendWelcome] ∧
      AmEvent.sendWelcome ∈
        [AmEvent.sendCommit, AmEvent.mergeCommit, AmEvent.publishGroupInfo,
          AmEvent.sendWelcome] ∧
      evIdx .sendCommit
          [AmEvent.sendCommit, AmEvent.mergeCommit, AmEvent.publishGroupInfo,
            AmEvent.sendWelcome] <
        evIdx .mergeCommit
          [AmEvent.sendCommit, AmEvent.mergeCommit, AmEvent.publishGroupInfo,
            AmEvent.sendWelcome] ∧
      evIdx .sendCommit
          [AmEvent.sendCommit, AmEvent.mergeCommit, AmEvent.publishGroupInfo,
            AmEvent.sendWelcome] <
        evIdx .sendWelcome
          [AmEvent.sendCommit, AmEvent.mergeCommit, AmEvent.publishGroupInfo,
            AmEvent.sendWelcome] ∧
      (AmEvent.publishGroupInfo ∈
          [AmEvent.sendCommit, AmEvent.mergeCommit, AmEvent.publishGroupInfo,
            AmEvent.sendWelcome] →
        evIdx .publishGroupInfo
            [AmEvent.sendCommit, AmEvent.mergeCommit, AmEvent.publishGroupInfo,
              AmEvent.sendWelcome] <
          evIdx .sendWelcome
            [AmEvent.sendCommit, AmEvent.mergeCommit, AmEvent.publishGroupInfo,
              AmEvent.sendWelcome]) :=
  add_member_commit_order extU user1 "Bob" "g1"
    (add_member_to_group extU user1 "Bob" "g1").snd.fst
    [AmEvent.sendCommit, AmEvent.mergeCommit, AmEvent.publishGroupInfo,
      AmEvent.sendWelcome] (by decide)

/-- C2: a successful `send_msg(plaintext, g)` returning `hex`, immediately
followed by `read_msg(hex, self.user_id, g)`, succeeds and returns the same
plaintext — served from the conversation cache, with the post-send state left
unchanged by the read (no MLS decryption happens). -/
theorem send_msg_read_msg_roundtrip (ext : Ext M W P KP GI) (u : UserSt M)
    (msg group_id hex : String) (u' : UserSt M)
    (h : send_msg ext u msg group_id = (.ok hex, u')) :
    read_msg ext u' hex u.user_id group_id = (.ok msg, u') := by
  unfold send_msg at h
  split at h
  · simp at h
  next _x group hgr =>
    split at h
    · simp at h
    next _x2 message_out mls1 hcm =>
      split at h
      · simp at h
      next _x3 msg_bytes htb =>
        simp only [Prod.mk.injEq, RustResult.ok.injEq] at h
        obtain ⟨hhex, hu⟩ := h
        subst hhex
        subst hu
        simp [read_msg, autosave_groups, setGroupConv, setGroupMls,
          mapGet_mapAdjust, hgr, Conversation.add,
          Conversation.get_cached_message, mapGet_mapInsert_self]

/-- C2 witness: `user1` sends `"ping"` to `g1` (hex fingerprint `"ab"`), and
immediately reading `"ab"` back as `"Alice"` returns `"ping"`. -/
theorem send_msg_read_msg_roundtrip_witness :
    read_msg extU (send_msg extU user1 "ping" "g1").snd "ab" "Alice" "g1" =
      (.ok "ping", (send_msg extU user1 "ping" "g1").snd) :=
  send_msg_read_msg_roundtrip extU user1 "ping" "g1" "ab"
    (send_msg extU user1 "ping" "g1").snd (by decide)

/-- C1 counterexample: a self-removing staged commit carried as a
`PublicMessage` does NOT drop the group: `handle_mls_group_event` discards the
`process_protocol_message` result in the `PublicMessage` branch
(`src/src/service/user.rs:515`), so `g1` stays in both `groups` and
`group_list`. -/
theorem handle_pubmsg_selfremove_retained_cx :
    handle_mls_group_event extU joinU user1 (.pubMsg ()) = (.ok (), user1) ∧
      mapContains user1.groups "g1" = true ∧ "g1" ∈ user1.group_list := by
  decide

/-- C1 (amended): a self-removing staged commit drops the group from both
`groups` and `group_list` only when it arrives as a `PrivateMessage`; when
the same commit arrives as a `PublicMessage` the result is discarded and the
group's presence in `groups` is unchanged (in both cases the call returns
`Ok`). -/
theorem handle_event_self_removal (ext : Ext M W P KP GI)
    (join_group : UserSt M → RustResult Unit × UserSt M) (u : UserSt M)
    (p : P) (g : Group M) (m1 m2 : M)
    (hg : mapGet u.groups (ext.group_id_of p) = some g)
    (hproc : ext.process_message g.mls_group p = .ok (.staged true, m1))
    (hmerge : ext.merge_staged_commit m1 p = .ok m2)
    (hgid : ext.mls_group_id m2 = ext.group_id_of p) :
    (handle_mls_group_event ext join_group u (.privMsg p)).fst = .ok () ∧
      mapContains (handle_mls_group_event ext join_group u (.privMsg p)).snd.groups
        (ext.group_id_of p) = false ∧
      ext.group_id_of p ∉
        (handle_mls_group_event ext join_group u (.privMsg p)).snd.group_list ∧
      (handle_mls_group_event ext join_group u (.pubMsg p)).fst = .ok () ∧
      mapContains (handle_mls_group_event ext join_group u (.pubMsg p)).snd.groups
        (ext.group_id_of p) = mapContains u.groups (ext.group_id_of p) := by
  have hpp : process_protocol_message ext u p =
      (.ok (.remove, some (ext.group_id_of p)),
        setGroupMls (setGroupMls u (ext.group_id_of p) m1) (ext.group_id_of p) m2) := by
    unfold process_protocol_message
    simp only [hg, hproc, hmerge, hgid, if_true]
  simp only [handle_mls_group_event, hpp]
  refine ⟨trivial, ?_, ?_, trivial, ?_⟩
  · exact mapContains_mapRemove_self _ _
  · exact not_mem_setRemove_self _ _
  · simp [setGroupMls, mapContains_mapAdjust]

/-- C1 (amended) witness: the amended statement evaluated on `user1` with a
self-removing staged commit for `g1`. -/
theorem handle_event_self_removal_witness :
    (handle_mls_group_event extU joinU user1 (.privMsg ())).fst = .ok () ∧
      mapContains (handle_mls_group_event extU joinU user1 (.privMsg ())).snd.groups
        (extU.group_id_of ()) = false ∧
      extU.group_id_of () ∉
        (handle_mls_group_event extU joinU user1 (.privMsg ())).snd.group_list ∧
      (handle_mls_group_event extU joinU user1 (.pubMsg ())).fst = .ok () ∧
      mapContains (handle_mls_group_event extU joinU user1 (.pubMsg ())).snd.groups
        (extU.group_id_of ()) = mapContains user1.groups (extU.group_id_of ()) :=
  handle_event_self_removal extU joinU user1 () ⟨"g1", Conversation.default, ()⟩
    () () rfl rfl rfl rfl

end Web3mq
